import Mathlib

/-!
Shallow embedding of `src/script/run_yolo_model2.py` (arthropod_detector_batch).

The script enumerates image files in a directory, runs a YOLO detector on each,
and writes a CSV detection ledger plus optional label files, crop files and
annotated images.  External capabilities (the detector, `cv2` decode, the file
system) are modelled by an environment `env : String → ImgBehavior` that, for
each file name, gives the decoded image dimensions, the ordered detection list,
and the point (if any) at which an exception is raised while processing that
image.  The per-image `try/except` of the Python code is modelled with
`Except RunState RunState`: `Except.error st` is an exception leaving the state
`st` already accumulated, which the driver catches and continues from.

Machine floats are modelled as rationals; the `"%.6f"` formatting of label
values is modelled by rounding to six decimal places (`round6`).
-/

namespace ArthropodBatch

/-- Code-point lexicographic order on character lists: the order Python uses to
compare `str` values (and hence same-directory `Path` values in `list.sort`). -/
def charListLe : List Char → List Char → Bool
  | [], _ => true
  | _ :: _, [] => false
  | a :: as, b :: bs => if a = b then charListLe as bs else decide (a < b)

/-- Python string comparison `s <= t` (code-point lexicographic). -/
def strLe (s t : String) : Bool :=
  charListLe s.toList t.toList

/-- ASCII lower-casing of one character, as Python `str.lower` acts on ASCII. -/
def charLower (c : Char) : Char :=
  if 'A' ≤ c ∧ c ≤ 'Z' then Char.ofNat (c.toNat + 32) else c

/-- Python `str.lower` restricted to ASCII, applied character-wise. -/
def lowerStr (s : String) : String :=
  String.mk (s.toList.map charLower)

/-- Index of the last dot of `name`, following CPython `pathlib`: the result is
`name.rfind(".")` computed as `length - 1 - indexOf-in-reverse`; when there is
no dot this evaluates to `0` by truncated subtraction, which the guards below
reject exactly as CPython's `0 < i` does. -/
def lastDotIdx (name : String) : ℕ :=
  name.toList.length - 1 - name.toList.reverse.indexOf '.'

/-- Python `Path(name).suffix` for a plain file name: `name[i:]` when
`0 < i < len(name) - 1` for `i` the last dot index, else the empty string. -/
def suffixOf (name : String) : String :=
  let cs := name.toList
  let i := lastDotIdx name
  if 0 < i ∧ i < cs.length - 1 then String.mk (cs.drop i) else ""

/-- Python `Path(name).stem` for a plain file name: `name[:i]` when
`0 < i < len(name) - 1` for `i` the last dot index, else `name` itself. -/
def stemOf (name : String) : String :=
  let cs := name.toList
  let i := lastDotIdx name
  if 0 < i ∧ i < cs.length - 1 then String.mk (cs.take i) else name

/-- The supported extensions, lower case, of `run_yolo_model2.py`. -/
def image_extensions : List String :=
  [".jpg", ".jpeg", ".png", ".bmp", ".tiff", ".tif"]

/-- One directory entry as seen by `images_path.iterdir()`. -/
structure DirEntry where
  name : String
  isFile : Bool
deriving DecidableEq, Repr

/-- The eligibility test of the enumeration:
`f.is_file() and f.suffix.lower() in image_extensions`. -/
def eligible (e : DirEntry) : Bool :=
  e.isFile && image_extensions.contains (lowerStr (suffixOf e.name))

/-- The file enumeration of the script: filter eligible entries, then
`image_files.sort()` (stable, lexicographic by name within one directory). -/
def enumerateImages (entries : List DirEntry) : List String :=
  List.insertionSort (fun a b => strLe a b = true)
    ((entries.filter eligible).map DirEntry.name)

/-- An axis-aligned detection box in absolute pixel coordinates. -/
structure Box where
  x1 : ℚ
  y1 : ℚ
  x2 : ℚ
  y2 : ℚ
deriving DecidableEq, Repr

/-- One raw detector output: class id, confidence, absolute box. -/
structure Detection where
  cls : ℕ
  conf : ℚ
  box : Box
deriving DecidableEq, Repr

/-- Where, if anywhere, an exception is raised while processing one image.
`decode` covers a detector or `cv2.imread` failure (before anything is
written); the other points are artifact-write failures.  `cropWrite k` raises
while writing the crop of zero-based detection `k` (crops `0..k-1` are already
on disk); if `k` is not a valid index the crop loop completes without error. -/
inductive FailPoint where
  | decode
  | labelWrite
  | cropWrite (k : ℕ)
  | annotatedWrite
deriving DecidableEq, Repr

/-- The behaviour of the external world on one image file: decoded dimensions,
the detector's ordered detection list, and the optional exception point. -/
structure ImgBehavior where
  width : ℕ
  height : ℕ
  dets : List Detection
  failAt : Option FailPoint
deriving DecidableEq, Repr

/-- One CSV cell: the `csv` module writes strings and numbers. -/
inductive Cell where
  | str : String → Cell
  | num : ℚ → Cell
deriving DecidableEq, Repr

/-- The header row `["dossier", "image", "detection_number", "score"]`. -/
def headerRow : List Cell :=
  [Cell.str "dossier", Cell.str "image", Cell.str "detection_number", Cell.str "score"]

/-- One detection ledger row: `[img_path.parent.name, img_path.name,
f"detection{i}", conf]` with `i` the 1-based enumeration index. -/
def detectionRow (dirName imgName : String) (i : ℕ) (d : Detection) : List Cell :=
  [Cell.str dirName, Cell.str imgName, Cell.str ("detection" ++ toString i), Cell.num d.conf]

/-- The ledger rows of `for i, box in enumerate(boxes, start=1)`, with the
start index made explicit for recursion. -/
def detectionRows (dirName imgName : String) : ℕ → List Detection → List (List Cell)
  | _, [] => []
  | i, d :: ds => detectionRow dirName imgName i d :: detectionRows dirName imgName (i + 1) ds

/-- The sentinel row `[img_path.parent.name, img_path.name, "no-detection", ""]`. -/
def sentinelRow (dirName imgName : String) : List Cell :=
  [Cell.str dirName, Cell.str imgName, Cell.str "no-detection", Cell.str ""]

/-- Rounding to six decimal places, the model of `f"{v:.6f}"` formatting. -/
def round6 (q : ℚ) : ℚ :=
  (⌊q * 1000000 + 1 / 2⌋ : ℚ) / 1000000

/-- One line of a YOLO label file, with the four box values already in their
six-decimal formatted form. -/
structure LabelLine where
  cls : ℕ
  center_x : ℚ
  center_y : ℚ
  w : ℚ
  h : ℚ
deriving DecidableEq, Repr

/-- The label line written for one detection: absolute box normalised by the
image width `W` and height `H`, each value formatted to six decimals. -/
def labelLineOf (W H : ℕ) (d : Detection) : LabelLine :=
  { cls := d.cls
    center_x := round6 (((d.box.x1 + d.box.x2) / 2) / (W : ℚ))
    center_y := round6 (((d.box.y1 + d.box.y2) / 2) / (H : ℚ))
    w := round6 ((d.box.x2 - d.box.x1) / (W : ℚ))
    h := round6 ((d.box.y2 - d.box.y1) / (H : ℚ)) }

/-- Zero-padding of `f"{i:03d}"`. -/
def pad3 (n : ℕ) : String :=
  String.mk (List.replicate (3 - (toString n).length) '0') ++ toString n

/-- The crop file name `f"{img_path.stem}_crop_{i:03d}.jpg"`. -/
def cropName (stem : String) (i : ℕ) : String :=
  stem ++ "_crop_" ++ pad3 i ++ ".jpg"

/-- The annotated file name `f"{img_path.stem}_annotated{img_path.suffix}"`. -/
def annotatedName (imgName : String) : String :=
  stemOf imgName ++ "_annotated" ++ suffixOf imgName

/-- The mutable state of one run: ledger rows written so far, artifact files
written so far, and the two counters of the batch driver. -/
structure RunState where
  rows : List (List Cell)
  labelFiles : List (String × List LabelLine)
  cropFiles : List String
  annotatedFiles : List String
  total_detections : ℕ
  processed_images : ℕ
deriving DecidableEq, Repr

/-- The label-file write of the non-empty branch (`save_labels`): one line per
detection.  Raises iff the environment marks a label-write failure; the
partially written single file of a failed write is not recorded. -/
def tryLabels (fl_save_labels : Bool) (imgName : String) (b : ImgBehavior)
    (st : RunState) : Except RunState RunState :=
  if fl_save_labels then
    if b.failAt = some FailPoint.labelWrite then Except.error st
    else Except.ok { st with
      labelFiles := st.labelFiles ++ [(stemOf imgName, b.dets.map (labelLineOf b.width b.height))] }
  else Except.ok st

/-- The crop-writing loop `for i, box in enumerate(boxes)`: one file per
detection named by the zero-based index.  On `cropWrite k` with `k` a valid
index, crops `0..k-1` are written and the write of crop `k` raises. -/
def tryCrops (fl_save_crops : Bool) (imgName : String) (b : ImgBehavior)
    (st : RunState) : Except RunState RunState :=
  if fl_save_crops then
    match b.failAt with
    | some (FailPoint.cropWrite k) =>
      if k < b.dets.length then
        Except.error { st with
          cropFiles := st.cropFiles ++ (List.range k).map (cropName (stemOf imgName)) }
      else
        Except.ok { st with
          cropFiles := st.cropFiles ++ (List.range b.dets.length).map (cropName (stemOf imgName)) }
    | _ =>
      Except.ok { st with
        cropFiles := st.cropFiles ++ (List.range b.dets.length).map (cropName (stemOf imgName)) }
  else Except.ok st

/-- The annotated-image write: one file per image (only reached in the
non-empty branch). -/
def tryAnnotated (fl_save_annotated : Bool) (imgName : String) (b : ImgBehavior)
    (st : RunState) : Except RunState RunState :=
  if fl_save_annotated then
    if b.failAt = some FailPoint.annotatedWrite then Except.error st
    else Except.ok { st with annotatedFiles := st.annotatedFiles ++ [annotatedName imgName] }
  else Except.ok st

/-- The label-file `touch()` of the empty branch: creates an empty label file. -/
def tryTouchLabel (fl_save_labels : Bool) (imgName : String) (b : ImgBehavior)
    (st : RunState) : Except RunState RunState :=
  if fl_save_labels then
    if b.failAt = some FailPoint.labelWrite then Except.error st
    else Except.ok { st with labelFiles := st.labelFiles ++ [(stemOf imgName, [])] }
  else Except.ok st

/-- The artifact-writing phase of the non-empty branch, in source order:
labels, then crops, then the annotated image. -/
def artifactPhase (fl_save_labels fl_save_crops fl_save_annotated : Bool)
    (imgName : String) (b : ImgBehavior) (st : RunState) : Except RunState RunState :=
  match tryLabels fl_save_labels imgName b st with
  | Except.error s => Except.error s
  | Except.ok s2 =>
    match tryCrops fl_save_crops imgName b s2 with
    | Except.error s => Except.error s
    | Except.ok s3 => tryAnnotated fl_save_annotated imgName b s3

/-- The three boolean feature flags of `run_yolo_inference`. -/
structure Flags where
  save_crops : Bool
  save_labels : Bool
  save_annotated : Bool
deriving DecidableEq, Repr

/-- The body of the per-image `try/except`: decode and detect; on success,
either write one ledger row per detection (1-indexed) and run the artifact
phase, or write the sentinel row and touch an empty label file; increment
`processed_images` only if no exception was raised.  An exception leaves the
state written so far and the driver continues with it. -/
def processImage (fl : Flags) (dirName imgName : String) (b : ImgBehavior)
    (st : RunState) : RunState :=
  if b.failAt = some FailPoint.decode then st
  else if b.dets.isEmpty then
    let st1 : RunState := { st with rows := st.rows ++ [sentinelRow dirName imgName] }
    match tryTouchLabel fl.save_labels imgName b st1 with
    | Except.error s => s
    | Except.ok s => { s with processed_images := s.processed_images + 1 }
  else
    let st1 : RunState := { st with
      total_detections := st.total_detections + b.dets.length
      rows := st.rows ++ detectionRows dirName imgName 1 b.dets }
    match artifactPhase fl.save_labels fl.save_crops fl.save_annotated imgName b st1 with
    | Except.error s => s
    | Except.ok s => { s with processed_images := s.processed_images + 1 }

/-- State right after the CSV file is opened in mode `w` and the header row is
written, counters initialised to zero. -/
def initState : RunState :=
  { rows := [headerRow], labelFiles := [], cropFiles := [], annotatedFiles := []
    total_detections := 0, processed_images := 0 }

/-- One value of the returned summary dictionary. -/
inductive SVal where
  | nat : ℕ → SVal
  | str : String → SVal
deriving DecidableEq, Repr

/-- Key lookup in the returned dictionary. -/
def lookupSummary (k : String) (m : List (String × SVal)) : Option SVal :=
  (m.find? (fun p => p.1 == k)).map (fun p => p.2)

/-- The whole observable outcome of one run: the returned dictionary, the
content of `detections.csv` (`none` when the file was never opened), and the
artifact files written. -/
structure RunOutput where
  summary : List (String × SVal)
  ledger : Option (List (List Cell))
  labelFiles : List (String × List LabelLine)
  cropFiles : List String
  annotatedFiles : List String
deriving DecidableEq, Repr

/-- `run_yolo_inference`, after setup: enumerate and sort the eligible files;
if none, return the two-key dictionary `{"total_images": 0,
"total_detections": 0}` without touching the CSV; otherwise open the CSV in
mode `w`, write the header, process each image under per-image exception
isolation, and return the five-key summary.  `dirName` is
`img_path.parent.name` (the images folder name), `outDir` the output folder
path as a string. -/
def run_yolo_inference (fl : Flags) (dirName outDir : String)
    (entries : List DirEntry) (env : String → ImgBehavior) : RunOutput :=
  let image_files := enumerateImages entries
  if image_files.isEmpty then
    { summary := [("total_images", SVal.nat 0), ("total_detections", SVal.nat 0)]
      ledger := none, labelFiles := [], cropFiles := [], annotatedFiles := [] }
  else
    let final := image_files.foldl
      (fun st imgName => processImage fl dirName imgName (env imgName) st) initState
    { summary := [("total_images", SVal.nat image_files.length),
                  ("processed_images", SVal.nat final.processed_images),
                  ("total_detections", SVal.nat final.total_detections),
                  ("output_folder", SVal.str outDir),
                  ("csv_path", SVal.str (outDir ++ "/detections.csv"))]
      ledger := some final.rows
      labelFiles := final.labelFiles
      cropFiles := final.cropFiles
      annotatedFiles := final.annotatedFiles }

/-- Whether processing one image reaches the `processed_images += 1` line,
i.e. no exception is raised for it, as a function of its behaviour and the
flags.  Mirrors the branch structure of `processImage`. -/
def imageSucceeds (fl : Flags) (b : ImgBehavior) : Bool :=
  match b.failAt with
  | none => true
  | some FailPoint.decode => false
  | some FailPoint.labelWrite => !fl.save_labels
  | some (FailPoint.cropWrite k) =>
    b.dets.isEmpty || !fl.save_crops || !(decide (k < b.dets.length))
  | some FailPoint.annotatedWrite => b.dets.isEmpty || !fl.save_annotated

/-- The ledger rows contributed by one image: nothing on a decode failure, the
sentinel row when the detection list is empty, one 1-indexed row per detection
otherwise. -/
def imageRows (dirName imgName : String) (b : ImgBehavior) : List (List Cell) :=
  if b.failAt = some FailPoint.decode then []
  else if b.dets.isEmpty then [sentinelRow dirName imgName]
  else detectionRows dirName imgName 1 b.dets

theorem processImage_rows (fl : Flags) (d n : String) (b : ImgBehavior) (st : RunState) :
    (processImage fl d n b st).rows = st.rows ++ imageRows d n b := by
  unfold processImage imageRows tryTouchLabel artifactPhase tryLabels tryCrops tryAnnotated
  repeat' split
  all_goals simp_all

theorem processImage_processed (fl : Flags) (d n : String) (b : ImgBehavior) (st : RunState) :
    (processImage fl d n b st).processed_images =
      st.processed_images + (if imageSucceeds fl b then 1 else 0) := by
  unfold processImage imageSucceeds tryTouchLabel artifactPhase tryLabels tryCrops tryAnnotated
  repeat' split
  all_goals (try simp_all)
  all_goals (rcases hb : b.failAt with _ | fp)
  all_goals (try simp_all)
  all_goals (rcases fp <;> simp_all)

theorem processImage_total (fl : Flags) (d n : String) (b : ImgBehavior) (st : RunState) :
    (processImage fl d n b st).total_detections =
      st.total_detections +
        (if b.failAt = some FailPoint.decode then 0
         else if b.dets.isEmpty then 0 else b.dets.length) := by
  unfold processImage tryTouchLabel artifactPhase tryLabels tryCrops tryAnnotated
  repeat' split
  all_goals simp_all

theorem detectionRows_length (d n : String) (i : ℕ) (ds : List Detection) :
    (detectionRows d n i ds).length = ds.length := by
  induction ds generalizing i with
  | nil => rfl
  | cons a as ih => simp [detectionRows, ih]

theorem detectionRows_getElem? (d n : String) (i : ℕ) (ds : List Detection)
    (k : ℕ) (hk : k < ds.length) :
    (detectionRows d n i ds)[k]? = some (detectionRow d n (i + k) (ds.get ⟨k, hk⟩)) := by
  induction ds generalizing i k with
  | nil => simp at hk
  | cons a as ih =>
    cases k with
    | zero => simp [detectionRows]
    | succ m =>
      have hm : m < as.length := by simpa using hk
      have := ih (i + 1) m hm
      simp only [detectionRows, List.getElem?_cons_succ, List.get]
      rw [this]
      congr 2
      omega

theorem sentinelRow_not_mem_detectionRows (d n : String) (i : ℕ) (ds : List Detection) :
    sentinelRow d n ∉ detectionRows d n i ds := by
  induction ds generalizing i with
  | nil => simp [detectionRows]
  | cons a as ih =>
    simp only [detectionRows, List.mem_cons, not_or]
    exact ⟨by simp [sentinelRow, detectionRow], ih (i + 1)⟩

theorem charListLe_total (as bs : List Char) :
    charListLe as bs = true ∨ charListLe bs as = true := by
  induction as generalizing bs with
  | nil => left; rfl
  | cons a as ih =>
    cases bs with
    | nil => right; rfl
    | cons b bs =>
      simp only [charListLe]
      by_cases hab : a = b
      · subst hab; simpa using ih bs
      · have hba : b ≠ a := fun e => hab e.symm
        rcases lt_or_gt_of_ne hab with h | h
        · left; simp [hab, h]
        · right; simp [hba, h]

theorem charListLe_trans (as bs cs : List Char)
    (h1 : charListLe as bs = true) (h2 : charListLe bs cs = true) :
    charListLe as cs = true := by
  induction as generalizing bs cs with
  | nil => rfl
  | cons a as ih =>
    cases bs with
    | nil => simp [charListLe] at h1
    | cons b bs =>
      cases cs with
      | nil => simp [charListLe] at h2
      | cons c cs =>
        simp only [charListLe] at h1 h2 ⊢
        by_cases hab : a = b
        · subst hab
          simp only [if_pos rfl] at h1
          by_cases hac : a = c
          · subst hac
            simp only [if_pos rfl] at h2 ⊢
            exact ih bs cs h1 h2
          · simp [hac] at h2 ⊢; exact h2
        · simp only [if_neg hab, decide_eq_true_eq] at h1
          by_cases hbc : b = c
          · subst hbc
            simp [hab, h1]
          · simp only [if_neg hbc, decide_eq_true_eq] at h2
            have hac : a < c := lt_trans h1 h2
            simp [ne_of_lt hac, hac]

instance : IsTotal String (fun a b => strLe a b = true) :=
  ⟨fun a b => charListLe_total a.toList b.toList⟩

instance : IsTrans String (fun a b => strLe a b = true) :=
  ⟨fun a b c => charListLe_trans a.toList b.toList c.toList⟩

theorem foldl_processImage_processed (fl : Flags) (d : String) (env : String → ImgBehavior)
    (files : List String) (st : RunState) :
    (files.foldl (fun s imgName => processImage fl d imgName (env imgName) s) st).processed_images
      = st.processed_images + files.countP (fun imgName => imageSucceeds fl (env imgName)) := by
  induction files generalizing st with
  | nil => simp
  | cons a as ih =>
    simp only [List.foldl_cons, List.countP_cons, ih, processImage_processed]
    by_cases h : imageSucceeds fl (env a) <;> (simp [h]; try omega)

theorem foldl_processImage_rows (fl : Flags) (d : String) (env : String → ImgBehavior)
    (files : List String) (st : RunState) :
    ∃ t, (files.foldl (fun s imgName => processImage fl d imgName (env imgName) s) st).rows
      = st.rows ++ t := by
  induction files generalizing st with
  | nil => exact ⟨[], by simp⟩
  | cons a as ih =>
    obtain ⟨t, ht⟩ := ih (processImage fl d a (env a) st)
    refine ⟨imageRows d a (env a) ++ t, ?_⟩
    simp [List.foldl_cons, ht, processImage_rows, List.append_assoc]

theorem foldl_processImage_env_congr (fl : Flags) (d : String)
    (env1 env2 : String → ImgBehavior) (files : List String) (st : RunState)
    (h : ∀ x ∈ files, env1 x = env2 x) :
    files.foldl (fun s imgName => processImage fl d imgName (env1 imgName) s) st =
      files.foldl (fun s imgName => processImage fl d imgName (env2 imgName) s) st := by
  induction files generalizing st with
  | nil => rfl
  | cons a as ih =>
    simp only [List.foldl_cons]
    rw [h a (by simp)]
    exact ih _ (fun x hx => h x (by simp [hx]))

theorem round6_sub_abs_le (q : ℚ) : |round6 q - q| ≤ 1 / 2000000 := by
  have h1 : ((⌊q * 1000000 + 1 / 2⌋ : ℤ) : ℚ) ≤ q * 1000000 + 1 / 2 := Int.floor_le _
  have h2 : q * 1000000 + 1 / 2 < ((⌊q * 1000000 + 1 / 2⌋ : ℤ) : ℚ) + 1 := Int.lt_floor_add_one _
  have e : round6 q - q = (((⌊q * 1000000 + 1 / 2⌋ : ℤ) : ℚ) - q * 1000000) / 1000000 := by
    unfold round6; ring
  rw [e, abs_div]
  have ha : |(1000000 : ℚ)| = 1000000 := by norm_num
  rw [ha, show (1 : ℚ) / 2000000 = (1 / 2) / 1000000 by norm_num]
  refine (div_le_div_iff_of_pos_right (by norm_num)).mpr ?_
  exact abs_le.mpr ⟨by linarith, by linarith⟩

theorem denorm_err_sub (p q t Wq : ℚ) (hW : 0 < Wq) (he : (p - q / 2) * Wq = t) :
    |(round6 p - round6 q / 2) * Wq - t| ≤ Wq / 10000 := by
  have h1 := round6_sub_abs_le p
  have h2 := round6_sub_abs_le q
  have e : (round6 p - round6 q / 2) * Wq - t
      = ((round6 p - p) - (round6 q - q) / 2) * Wq := by rw [← he]; ring
  rw [e, abs_mul, abs_of_pos hW]
  have hb : |(round6 p - p) - (round6 q - q) / 2| ≤ 3 / 4000000 := by
    calc |(round6 p - p) - (round6 q - q) / 2|
        = |(round6 p - p) + -((round6 q - q) / 2)| := by rw [sub_eq_add_neg]
      _ ≤ |round6 p - p| + |-((round6 q - q) / 2)| := abs_add _ _
      _ = |round6 p - p| + |round6 q - q| / 2 := by rw [abs_neg, abs_div]; norm_num
      _ ≤ 1 / 2000000 + (1 / 2000000) / 2 := by gcongr
      _ = 3 / 4000000 := by norm_num
  calc |(round6 p - p) - (round6 q - q) / 2| * Wq
      ≤ (3 / 4000000) * Wq := mul_le_mul_of_nonneg_right hb (le_of_lt hW)
    _ ≤ Wq / 10000 := by linarith

theorem denorm_err_add (p q t Wq : ℚ) (hW : 0 < Wq) (he : (p + q / 2) * Wq = t) :
    |(round6 p + round6 q / 2) * Wq - t| ≤ Wq / 10000 := by
  have h1 := round6_sub_abs_le p
  have h2 := round6_sub_abs_le q
  have e : (round6 p + round6 q / 2) * Wq - t
      = ((round6 p - p) + (round6 q - q) / 2) * Wq := by rw [← he]; ring
  rw [e, abs_mul, abs_of_pos hW]
  have hb : |(round6 p - p) + (round6 q - q) / 2| ≤ 3 / 4000000 := by
    calc |(round6 p - p) + (round6 q - q) / 2|
        ≤ |round6 p - p| + |(round6 q - q) / 2| := abs_add _ _
      _ = |round6 p - p| + |round6 q - q| / 2 := by rw [abs_div]; norm_num
      _ ≤ 1 / 2000000 + (1 / 2000000) / 2 := by gcongr
      _ = 3 / 4000000 := by norm_num
  calc |(round6 p - p) + (round6 q - q) / 2| * Wq
      ≤ (3 / 4000000) * Wq := mul_le_mul_of_nonneg_right hb (le_of_lt hW)
    _ ≤ Wq / 10000 := by linarith

/-- C1: for every successfully processed image, the ledger receives either
exactly one row per detection, labelled `detection(i)` with `i` the 1-based
index in the detector's encounter order and carrying that detection's
confidence, or, when the detection list is empty, exactly one sentinel row —
never both kinds of row and never zero rows for that image.  Success is the
`imageSucceeds` predicate, shown equivalent to the `processed_images`
increment in the first conjunct. -/
theorem C1_one_row_per_detection_or_one_sentinel
    (fl : Flags) (dirName imgName : String) (b : ImgBehavior) (st : RunState)
    (hs : imageSucceeds fl b = true) :
    (processImage fl dirName imgName b st).processed_images = st.processed_images + 1 ∧
    (processImage fl dirName imgName b st).rows = st.rows ++ imageRows dirName imgName b ∧
    imageRows dirName imgName b ≠ [] ∧
    (b.dets = [] → imageRows dirName imgName b = [sentinelRow dirName imgName]) ∧
    (b.dets ≠ [] →
      (imageRows dirName imgName b).length = b.dets.length ∧
      (∀ i : ℕ, (h : i < b.dets.length) →
        (imageRows dirName imgName b)[i]? =
          some [Cell.str dirName, Cell.str imgName,
                Cell.str ("detection" ++ toString (i + 1)),
                Cell.num (b.dets.get ⟨i, h⟩).conf]) ∧
      sentinelRow dirName imgName ∉ imageRows dirName imgName b) := by
  have hnd : ¬b.failAt = some FailPoint.decode := by
    intro h
    simp [imageSucceeds, h] at hs
  refine ⟨by simp [processImage_processed, hs], processImage_rows fl dirName imgName b st,
    ?_, ?_, ?_⟩
  · intro hnil
    by_cases he : b.dets.isEmpty
    · simp [imageRows, hnd, he] at hnil
    · have h1 : imageRows dirName imgName b = detectionRows dirName imgName 1 b.dets := by
        simp [imageRows, hnd, he]
      rw [h1] at hnil
      have h2 := detectionRows_length dirName imgName 1 b.dets
      rw [hnil] at h2
      have h3 : b.dets = [] := List.length_eq_zero.mp h2.symm
      simp [h3] at he
  · intro he
    simp [imageRows, hnd, he]
  · intro hne
    have hie : b.dets.isEmpty = false := by
      rcases hd : b.dets with _ | ⟨a, as⟩
      · exact absurd hd hne
      · rfl
    have hrows : imageRows dirName imgName b = detectionRows dirName imgName 1 b.dets := by
      simp [imageRows, hnd, hie]
    refine ⟨by rw [hrows, detectionRows_length], ?_, ?_⟩
    · intro i h
      rw [hrows, detectionRows_getElem? dirName imgName 1 b.dets i h]
      simp [detectionRow, Nat.add_comm]
    · rw [hrows]
      exact sentinelRow_not_mem_detectionRows dirName imgName 1 b.dets

/-- Witness for C1 at a concrete processed image with one detection. -/
theorem C1_witness :
    imageSucceeds ⟨false, false, false⟩ ⟨10, 10, [⟨0, 1, ⟨1, 2, 3, 4⟩⟩], none⟩ = true ∧
    ((processImage ⟨false, false, false⟩ "imgs" "a.jpg" ⟨10, 10, [⟨0, 1, ⟨1, 2, 3, 4⟩⟩], none⟩ initState).processed_images = initState.processed_images + 1 ∧
    (processImage ⟨false, false, false⟩ "imgs" "a.jpg" ⟨10, 10, [⟨0, 1, ⟨1, 2, 3, 4⟩⟩], none⟩ initState).rows = initState.rows ++ imageRows "imgs" "a.jpg" ⟨10, 10, [⟨0, 1, ⟨1, 2, 3, 4⟩⟩], none⟩ ∧
    imageRows "imgs" "a.jpg" ⟨10, 10, [⟨0, 1, ⟨1, 2, 3, 4⟩⟩], none⟩ ≠ [] ∧
    ((⟨10, 10, [⟨0, 1, ⟨1, 2, 3, 4⟩⟩], none⟩ : ImgBehavior).dets = [] → imageRows "imgs" "a.jpg" ⟨10, 10, [⟨0, 1, ⟨1, 2, 3, 4⟩⟩], none⟩ = [sentinelRow "imgs" "a.jpg"]) ∧
    ((⟨10, 10, [⟨0, 1, ⟨1, 2, 3, 4⟩⟩], none⟩ : ImgBehavior).dets ≠ [] →
      (imageRows "imgs" "a.jpg" ⟨10, 10, [⟨0, 1, ⟨1, 2, 3, 4⟩⟩], none⟩).length = (⟨10, 10, [⟨0, 1, ⟨1, 2, 3, 4⟩⟩], none⟩ : ImgBehavior).dets.length ∧
      (∀ i : ℕ, (h : i < (⟨10, 10, [⟨0, 1, ⟨1, 2, 3, 4⟩⟩], none⟩ : ImgBehavior).dets.length) →
        (imageRows "imgs" "a.jpg" ⟨10, 10, [⟨0, 1, ⟨1, 2, 3, 4⟩⟩], none⟩)[i]? =
          some [Cell.str "imgs", Cell.str "a.jpg",
                Cell.str ("detection" ++ toString (i + 1)),
                Cell.num ((⟨10, 10, [⟨0, 1, ⟨1, 2, 3, 4⟩⟩], none⟩ : ImgBehavior).dets.get ⟨i, h⟩).conf]) ∧
      sentinelRow "imgs" "a.jpg" ∉ imageRows "imgs" "a.jpg" ⟨10, 10, [⟨0, 1, ⟨1, 2, 3, 4⟩⟩], none⟩)) :=
  ⟨rfl, C1_one_row_per_detection_or_one_sentinel ⟨false, false, false⟩ "imgs" "a.jpg"
    ⟨10, 10, [⟨0, 1, ⟨1, 2, 3, 4⟩⟩], none⟩ initState rfl⟩

/-- C6: for every detection box with ordered coordinates and positive image
dimensions, denormalising the six-decimal formatted values written to the
label file (via x1 = (center_x - width / 2) * W and so on) reproduces the
original absolute box within 1e-4 of the corresponding image dimension. -/
theorem C6_normalization_roundtrip (d : Detection) (W H : ℕ)
    (hW : 0 < W) (hH : 0 < H)
    (hx : d.box.x1 ≤ d.box.x2) (hy : d.box.y1 ≤ d.box.y2) :
    |((labelLineOf W H d).center_x - (labelLineOf W H d).w / 2) * (W : ℚ) - d.box.x1|
        ≤ (W : ℚ) / 10000 ∧
    |((labelLineOf W H d).center_x + (labelLineOf W H d).w / 2) * (W : ℚ) - d.box.x2|
        ≤ (W : ℚ) / 10000 ∧
    |((labelLineOf W H d).center_y - (labelLineOf W H d).h / 2) * (H : ℚ) - d.box.y1|
        ≤ (H : ℚ) / 10000 ∧
    |((labelLineOf W H d).center_y + (labelLineOf W H d).h / 2) * (H : ℚ) - d.box.y2|
        ≤ (H : ℚ) / 10000 := by
  have hWq : (0 : ℚ) < (W : ℚ) := by exact_mod_cast hW
  have hHq : (0 : ℚ) < (H : ℚ) := by exact_mod_cast hH
  have hWne : (W : ℚ) ≠ 0 := ne_of_gt hWq
  have hHne : (H : ℚ) ≠ 0 := ne_of_gt hHq
  refine ⟨?_, ?_, ?_, ?_⟩
  · simp only [labelLineOf]
    exact denorm_err_sub _ _ _ _ hWq (by field_simp; ring)
  · simp only [labelLineOf]
    exact denorm_err_add _ _ _ _ hWq (by field_simp; ring)
  · simp only [labelLineOf]
    exact denorm_err_sub _ _ _ _ hHq (by field_simp; ring)
  · simp only [labelLineOf]
    exact denorm_err_add _ _ _ _ hHq (by field_simp; ring)

/-- Witness for C6 at a concrete box and image size. -/
theorem C6_witness :
    0 < 10 ∧ 0 < 10 ∧
    (⟨0, 1, ⟨1, 2, 3, 4⟩⟩ : Detection).box.x1 ≤ (⟨0, 1, ⟨1, 2, 3, 4⟩⟩ : Detection).box.x2 ∧
    (⟨0, 1, ⟨1, 2, 3, 4⟩⟩ : Detection).box.y1 ≤ (⟨0, 1, ⟨1, 2, 3, 4⟩⟩ : Detection).box.y2 ∧
    (|((labelLineOf 10 10 ⟨0, 1, ⟨1, 2, 3, 4⟩⟩).center_x - (labelLineOf 10 10 ⟨0, 1, ⟨1, 2, 3, 4⟩⟩).w / 2) * ((10 : ℕ) : ℚ) - (⟨0, 1, ⟨1, 2, 3, 4⟩⟩ : Detection).box.x1|
        ≤ ((10 : ℕ) : ℚ) / 10000 ∧
    |((labelLineOf 10 10 ⟨0, 1, ⟨1, 2, 3, 4⟩⟩).center_x + (labelLineOf 10 10 ⟨0, 1, ⟨1, 2, 3, 4⟩⟩).w / 2) * ((10 : ℕ) : ℚ) - (⟨0, 1, ⟨1, 2, 3, 4⟩⟩ : Detection).box.x2|
        ≤ ((10 : ℕ) : ℚ) / 10000 ∧
    |((labelLineOf 10 10 ⟨0, 1, ⟨1, 2, 3, 4⟩⟩).center_y - (labelLineOf 10 10 ⟨0, 1, ⟨1, 2, 3, 4⟩⟩).h / 2) * ((10 : ℕ) : ℚ) - (⟨0, 1, ⟨1, 2, 3, 4⟩⟩ : Detection).box.y1|
        ≤ ((10 : ℕ) : ℚ) / 10000 ∧
    |((labelLineOf 10 10 ⟨0, 1, ⟨1, 2, 3, 4⟩⟩).center_y + (labelLineOf 10 10 ⟨0, 1, ⟨1, 2, 3, 4⟩⟩).h / 2) * ((10 : ℕ) : ℚ) - (⟨0, 1, ⟨1, 2, 3, 4⟩⟩ : Detection).box.y2|
        ≤ ((10 : ℕ) : ℚ) / 10000) :=
  ⟨by norm_num, by norm_num, by norm_num, by norm_num,
    C6_normalization_roundtrip ⟨0, 1, ⟨1, 2, 3, 4⟩⟩ 10 10 (by norm_num) (by norm_num)
      (by norm_num) (by norm_num)⟩

theorem countP_not_add {α : Type} (p : α → Bool) (l : List α) :
    l.countP (fun a => !p a) + l.countP p = l.length := by
  induction l with
  | nil => rfl
  | cons a as ih => by_cases h : p a <;> (simp [List.countP_cons, h]; omega)

/-- C3 counterexample: on a directory with no eligible image, the returned
dictionary is exactly the two keys `total_images` and `total_detections`; the
claimed `processed_images`, `output_folder` and `csv_path` entries are absent
from the returned summary. -/
theorem C3_counterexample :
    (run_yolo_inference ⟨false, false, false⟩ "imgs" "out"
        [⟨"notes.txt", true⟩] (fun _ => ⟨1, 1, [], none⟩)).summary
      = [("total_images", SVal.nat 0), ("total_detections", SVal.nat 0)] ∧
    lookupSummary "processed_images"
      (run_yolo_inference ⟨false, false, false⟩ "imgs" "out"
        [⟨"notes.txt", true⟩] (fun _ => ⟨1, 1, [], none⟩)).summary = none ∧
    lookupSummary "output_folder"
      (run_yolo_inference ⟨false, false, false⟩ "imgs" "out"
        [⟨"notes.txt", true⟩] (fun _ => ⟨1, 1, [], none⟩)).summary = none ∧
    lookupSummary "csv_path"
      (run_yolo_inference ⟨false, false, false⟩ "imgs" "out"
        [⟨"notes.txt", true⟩] (fun _ => ⟨1, 1, [], none⟩)).summary = none := by
  decide

/-- C3 amended: with zero eligible files the operation returns normally, with
the total-image and total-detection counters zero; the returned summary is the
two-key dictionary only, without a processed-image count, output directory
path or ledger path, and no CSV is written. -/
theorem C3_no_eligible_images_two_key_summary (fl : Flags) (dirName outDir : String)
    (entries : List DirEntry) (env : String → ImgBehavior)
    (h : enumerateImages entries = []) :
    run_yolo_inference fl dirName outDir entries env =
      { summary := [("total_images", SVal.nat 0), ("total_detections", SVal.nat 0)]
        ledger := none, labelFiles := [], cropFiles := [], annotatedFiles := [] } ∧
    lookupSummary "total_images"
        (run_yolo_inference fl dirName outDir entries env).summary = some (SVal.nat 0) ∧
    lookupSummary "total_detections"
        (run_yolo_inference fl dirName outDir entries env).summary = some (SVal.nat 0) := by
  have h1 : run_yolo_inference fl dirName outDir entries env =
      { summary := [("total_images", SVal.nat 0), ("total_detections", SVal.nat 0)]
        ledger := none, labelFiles := [], cropFiles := [], annotatedFiles := [] } := by
    simp [run_yolo_inference, h]
  refine ⟨h1, ?_, ?_⟩ <;> rw [h1] <;> rfl

/-- Witness for the amended C3 at a concrete ineligible directory. -/
theorem C3_witness :
    enumerateImages [⟨"data.bin", true⟩] = [] ∧
    (run_yolo_inference ⟨true, true, true⟩ "d" "o" [⟨"data.bin", true⟩]
        (fun _ => ⟨1, 1, [], none⟩) =
      { summary := [("total_images", SVal.nat 0), ("total_detections", SVal.nat 0)]
        ledger := none, labelFiles := [], cropFiles := [], annotatedFiles := [] } ∧
    lookupSummary "total_images"
        (run_yolo_inference ⟨true, true, true⟩ "d" "o" [⟨"data.bin", true⟩]
          (fun _ => ⟨1, 1, [], none⟩)).summary = some (SVal.nat 0) ∧
    lookupSummary "total_detections"
        (run_yolo_inference ⟨true, true, true⟩ "d" "o" [⟨"data.bin", true⟩]
          (fun _ => ⟨1, 1, [], none⟩)).summary = some (SVal.nat 0)) :=
  ⟨by decide, C3_no_eligible_images_two_key_summary ⟨true, true, true⟩ "d" "o"
    [⟨"data.bin", true⟩] (fun _ => ⟨1, 1, [], none⟩) (by decide)⟩

/-- C7 counterexample: a run over a directory whose entries are all ineligible
passes setup but never opens `detections.csv`, so the ledger is not
overwritten and no header row is written for that run. -/
theorem C7_counterexample :
    (run_yolo_inference ⟨true, true, true⟩ "imgs" "out"
        [⟨"readme.md", true⟩, ⟨"sub.jpg", false⟩] (fun _ => ⟨1, 1, [], none⟩)).ledger
      = none := by
  decide

/-- C7 amended: for every run that passes setup and finds at least one
eligible image, the ledger file content is exactly what this run writes from
the fresh `initState` (mode `w`: overwritten at run start), its first row is
the four-column header, and rows are only appended as the run proceeds: the
rows after any first `k` images form a prefix of the final rows. -/
theorem C7_header_first_and_append_only (fl : Flags) (dirName outDir : String)
    (entries : List DirEntry) (env : String → ImgBehavior)
    (h : enumerateImages entries ≠ []) :
    (run_yolo_inference fl dirName outDir entries env).ledger =
      some (((enumerateImages entries).foldl
        (fun s imgName => processImage fl dirName imgName (env imgName) s) initState).rows) ∧
    (∃ body, ((enumerateImages entries).foldl
        (fun s imgName => processImage fl dirName imgName (env imgName) s) initState).rows
      = headerRow :: body) ∧
    (∀ k : ℕ, ∃ t, ((enumerateImages entries).foldl
        (fun s imgName => processImage fl dirName imgName (env imgName) s) initState).rows
      = (((enumerateImages entries).take k).foldl
        (fun s imgName => processImage fl dirName imgName (env imgName) s) initState).rows ++ t) := by
  have hne : (enumerateImages entries).isEmpty = false := by
    rcases hd : enumerateImages entries with _ | _
    · exact absurd hd h
    · rfl
  refine ⟨by simp [run_yolo_inference, hne], ?_, ?_⟩
  · obtain ⟨t, ht⟩ := foldl_processImage_rows fl dirName env (enumerateImages entries) initState
    exact ⟨t, by simpa [initState] using ht⟩
  · intro k
    obtain ⟨t, ht⟩ := foldl_processImage_rows fl dirName env ((enumerateImages entries).drop k)
      (((enumerateImages entries).take k).foldl
        (fun s imgName => processImage fl dirName imgName (env imgName) s) initState)
    refine ⟨t, ?_⟩
    rw [← List.take_append_drop k (enumerateImages entries)]
    rw [List.foldl_append, List.take_append_drop]
    exact ht

/-- Witness for the amended C7 at a run with one eligible image. -/
theorem C7_witness :
    enumerateImages [⟨"a.jpg", true⟩] ≠ [] ∧
    ((run_yolo_inference ⟨false, false, false⟩ "imgs" "out" [⟨"a.jpg", true⟩]
        (fun _ => ⟨1, 1, [], none⟩)).ledger =
      some (((enumerateImages [⟨"a.jpg", true⟩]).foldl
        (fun s imgName => processImage ⟨false, false, false⟩ "imgs" imgName
          ((fun _ => (⟨1, 1, [], none⟩ : ImgBehavior)) imgName) s) initState).rows) ∧
    (∃ body, ((enumerateImages [⟨"a.jpg", true⟩]).foldl
        (fun s imgName => processImage ⟨false, false, false⟩ "imgs" imgName
          ((fun _ => (⟨1, 1, [], none⟩ : ImgBehavior)) imgName) s) initState).rows
      = headerRow :: body) ∧
    (∀ k : ℕ, ∃ t, ((enumerateImages [⟨"a.jpg", true⟩]).foldl
        (fun s imgName => processImage ⟨false, false, false⟩ "imgs" imgName
          ((fun _ => (⟨1, 1, [], none⟩ : ImgBehavior)) imgName) s) initState).rows
      = (((enumerateImages [⟨"a.jpg", true⟩]).take k).foldl
        (fun s imgName => processImage ⟨false, false, false⟩ "imgs" imgName
          ((fun _ => (⟨1, 1, [], none⟩ : ImgBehavior)) imgName) s) initState).rows ++ t)) :=
  ⟨by decide, C7_header_first_and_append_only ⟨false, false, false⟩ "imgs" "out"
    [⟨"a.jpg", true⟩] (fun _ => ⟨1, 1, [], none⟩) (by decide)⟩

/-- C2: when exactly one of the enumerated images fails (decode, detector or
artifact-write failure), the run still returns normally (the model of the run
is a total function, so no per-image exception escapes), the summary reports
N total images and N-1 processed images, and the remaining N-1 images are
the processed ones. -/
theorem C2_one_failure_isolated (fl : Flags) (dirName outDir : String)
    (entries : List DirEntry) (env : String → ImgBehavior)
    (h : (enumerateImages entries).countP
        (fun imgName => !imageSucceeds fl (env imgName)) = 1) :
    lookupSummary "total_images" (run_yolo_inference fl dirName outDir entries env).summary
      = some (SVal.nat (enumerateImages entries).length) ∧
    lookupSummary "processed_images" (run_yolo_inference fl dirName outDir entries env).summary
      = some (SVal.nat ((enumerateImages entries).length - 1)) ∧
    1 ≤ (enumerateImages entries).length := by
  have hsum := countP_not_add (fun imgName => imageSucceeds fl (env imgName))
    (enumerateImages entries)
  have hcle := List.countP_le_length
    (p := fun imgName => !imageSucceeds fl (env imgName)) (l := enumerateImages entries)
  have hpos : 1 ≤ (enumerateImages entries).length := by omega
  have hp : (enumerateImages entries).countP (fun imgName => imageSucceeds fl (env imgName))
      = (enumerateImages entries).length - 1 := by omega
  have hne : (enumerateImages entries).isEmpty = false := by
    rcases hd : enumerateImages entries with _ | _
    · rw [hd] at hpos; simp at hpos
    · rfl
  refine ⟨?_, ?_, hpos⟩
  · simp [run_yolo_inference, hne, lookupSummary, List.find?]
  · simp [run_yolo_inference, hne, lookupSummary, List.find?,
      foldl_processImage_processed, initState, hp]

/-- Witness for C2: three eligible images of which exactly one (`b.jpg`)
fails to decode. -/
theorem C2_witness :
    (enumerateImages [⟨"a.jpg", true⟩, ⟨"b.jpg", true⟩, ⟨"c.jpg", true⟩]).countP
        (fun imgName => !imageSucceeds ⟨false, false, false⟩
          ((fun n => if n = "b.jpg" then (⟨1, 1, [], some FailPoint.decode⟩ : ImgBehavior)
            else ⟨1, 1, [], none⟩) imgName)) = 1 ∧
    (lookupSummary "total_images"
        (run_yolo_inference ⟨false, false, false⟩ "d" "o"
          [⟨"a.jpg", true⟩, ⟨"b.jpg", true⟩, ⟨"c.jpg", true⟩]
          (fun n => if n = "b.jpg" then ⟨1, 1, [], some FailPoint.decode⟩
            else ⟨1, 1, [], none⟩)).summary
      = some (SVal.nat (enumerateImages
          [⟨"a.jpg", true⟩, ⟨"b.jpg", true⟩, ⟨"c.jpg", true⟩]).length) ∧
    lookupSummary "processed_images"
        (run_yolo_inference ⟨false, false, false⟩ "d" "o"
          [⟨"a.jpg", true⟩, ⟨"b.jpg", true⟩, ⟨"c.jpg", true⟩]
          (fun n => if n = "b.jpg" then ⟨1, 1, [], some FailPoint.decode⟩
            else ⟨1, 1, [], none⟩)).summary
      = some (SVal.nat ((enumerateImages
          [⟨"a.jpg", true⟩, ⟨"b.jpg", true⟩, ⟨"c.jpg", true⟩]).length - 1)) ∧
    1 ≤ (enumerateImages [⟨"a.jpg", true⟩, ⟨"b.jpg", true⟩, ⟨"c.jpg", true⟩]).length) :=
  ⟨by decide, C2_one_failure_isolated ⟨false, false, false⟩ "d" "o"
    [⟨"a.jpg", true⟩, ⟨"b.jpg", true⟩, ⟨"c.jpg", true⟩]
    (fun n => if n = "b.jpg" then ⟨1, 1, [], some FailPoint.decode⟩ else ⟨1, 1, [], none⟩)
    (by decide)⟩

theorem artifact_failure_not_decode (fl : Flags) (b : ImgBehavior)
    (hfail : (fl.save_labels = true ∧ b.failAt = some FailPoint.labelWrite)
      ∨ (∃ k, fl.save_crops = true ∧ b.failAt = some (FailPoint.cropWrite k) ∧ k < b.dets.length)
      ∨ (fl.save_annotated = true ∧ b.failAt = some FailPoint.annotatedWrite)) :
    ¬b.failAt = some FailPoint.decode := by
  rcases hfail with ⟨_, hf⟩ | ⟨k, _, hf, _⟩ | ⟨_, hf⟩ <;> simp [hf]

theorem artifact_failure_not_succeeds (fl : Flags) (b : ImgBehavior)
    (hne : b.dets ≠ [])
    (hfail : (fl.save_labels = true ∧ b.failAt = some FailPoint.labelWrite)
      ∨ (∃ k, fl.save_crops = true ∧ b.failAt = some (FailPoint.cropWrite k) ∧ k < b.dets.length)
      ∨ (fl.save_annotated = true ∧ b.failAt = some FailPoint.annotatedWrite)) :
    imageSucceeds fl b = false := by
  have hie : b.dets.isEmpty = false := by
    rcases hd : b.dets with _ | _
    · exact absurd hd hne
    · rfl
  rcases hfail with ⟨hl, hf⟩ | ⟨k, hc, hf, hk⟩ | ⟨ha, hf⟩
  · simp [imageSucceeds, hf, hl, hie]
  · simp [imageSucceeds, hf, hc, hie, hk]
  · simp [imageSucceeds, hf, ha, hie]

/-- C4: when writing one enabled artifact for an image with detections fails,
the exception is caught at the driver boundary (the step function is total and
yields a state to continue from), the image is not counted as processed, and
the artifacts already written for it — in particular its ledger rows, and for
a crop failure at index `k` also the label file and the first `k` crop
files — are left in place. -/
theorem C4_artifact_failure_keeps_written_artifacts
    (fl : Flags) (dirName imgName : String) (b : ImgBehavior) (st : RunState)
    (hne : b.dets ≠ [])
    (hfail : (fl.save_labels = true ∧ b.failAt = some FailPoint.labelWrite)
      ∨ (∃ k, fl.save_crops = true ∧ b.failAt = some (FailPoint.cropWrite k) ∧ k < b.dets.length)
      ∨ (fl.save_annotated = true ∧ b.failAt = some FailPoint.annotatedWrite)) :
    (processImage fl dirName imgName b st).processed_images = st.processed_images ∧
    (processImage fl dirName imgName b st).rows
      = st.rows ++ detectionRows dirName imgName 1 b.dets ∧
    (∀ k, b.failAt = some (FailPoint.cropWrite k) → fl.save_crops = true →
      k < b.dets.length →
      (processImage fl dirName imgName b st).cropFiles
        = st.cropFiles ++ (List.range k).map (cropName (stemOf imgName)) ∧
      (fl.save_labels = true →
        (processImage fl dirName imgName b st).labelFiles
          = st.labelFiles ++ [(stemOf imgName, b.dets.map (labelLineOf b.width b.height))])) := by
  have hie : b.dets.isEmpty = false := by
    rcases hd : b.dets with _ | _
    · exact absurd hd hne
    · rfl
  have hnd := artifact_failure_not_decode fl b hfail
  have hsf := artifact_failure_not_succeeds fl b hne hfail
  refine ⟨by simp [processImage_processed, hsf], ?_, ?_⟩
  · rw [processImage_rows]; simp [imageRows, hnd, hie]
  · intro k hk hc hkl
    cases hsl : fl.save_labels <;>
      (constructor <;>
        simp [processImage, artifactPhase, tryLabels, tryCrops, hnd, hie, hk, hc, hsl, hkl])

/-- Witness for C4: crops and labels enabled, one detection, crop write of
index 0 fails. -/
theorem C4_witness :
    ((⟨10, 10, [⟨0, 1, ⟨1, 2, 3, 4⟩⟩], some (FailPoint.cropWrite 0)⟩ : ImgBehavior).dets ≠ []) ∧
    (((⟨true, true, false⟩ : Flags).save_labels = true ∧
        (⟨10, 10, [⟨0, 1, ⟨1, 2, 3, 4⟩⟩], some (FailPoint.cropWrite 0)⟩ : ImgBehavior).failAt
          = some FailPoint.labelWrite)
      ∨ (∃ k, (⟨true, true, false⟩ : Flags).save_crops = true ∧
          (⟨10, 10, [⟨0, 1, ⟨1, 2, 3, 4⟩⟩], some (FailPoint.cropWrite 0)⟩ : ImgBehavior).failAt
            = some (FailPoint.cropWrite k) ∧
          k < (⟨10, 10, [⟨0, 1, ⟨1, 2, 3, 4⟩⟩], some (FailPoint.cropWrite 0)⟩ : ImgBehavior).dets.length)
      ∨ ((⟨true, true, false⟩ : Flags).save_annotated = true ∧
          (⟨10, 10, [⟨0, 1, ⟨1, 2, 3, 4⟩⟩], some (FailPoint.cropWrite 0)⟩ : ImgBehavior).failAt
            = some FailPoint.annotatedWrite)) ∧
    ((processImage ⟨true, true, false⟩ "imgs" "a.jpg"
        ⟨10, 10, [⟨0, 1, ⟨1, 2, 3, 4⟩⟩], some (FailPoint.cropWrite 0)⟩ initState).processed_images
      = initState.processed_images ∧
    (processImage ⟨true, true, false⟩ "imgs" "a.jpg"
        ⟨10, 10, [⟨0, 1, ⟨1, 2, 3, 4⟩⟩], some (FailPoint.cropWrite 0)⟩ initState).rows
      = initState.rows ++ detectionRows "imgs" "a.jpg" 1
          (⟨10, 10, [⟨0, 1, ⟨1, 2, 3, 4⟩⟩], some (FailPoint.cropWrite 0)⟩ : ImgBehavior).dets ∧
    (∀ k, (⟨10, 10, [⟨0, 1, ⟨1, 2, 3, 4⟩⟩], some (FailPoint.cropWrite 0)⟩ : ImgBehavior).failAt
        = some (FailPoint.cropWrite k) →
      (⟨true, true, false⟩ : Flags).save_crops = true →
      k < (⟨10, 10, [⟨0, 1, ⟨1, 2, 3, 4⟩⟩], some (FailPoint.cropWrite 0)⟩ : ImgBehavior).dets.length →
      (processImage ⟨true, true, false⟩ "imgs" "a.jpg"
          ⟨10, 10, [⟨0, 1, ⟨1, 2, 3, 4⟩⟩], some (FailPoint.cropWrite 0)⟩ initState).cropFiles
        = initState.cropFiles ++ (List.range k).map (cropName (stemOf "a.jpg")) ∧
      ((⟨true, true, false⟩ : Flags).save_labels = true →
        (processImage ⟨true, true, false⟩ "imgs" "a.jpg"
            ⟨10, 10, [⟨0, 1, ⟨1, 2, 3, 4⟩⟩], some (FailPoint.cropWrite 0)⟩ initState).labelFiles
          = initState.labelFiles ++ [(stemOf "a.jpg",
              (⟨10, 10, [⟨0, 1, ⟨1, 2, 3, 4⟩⟩], some (FailPoint.cropWrite 0)⟩ : ImgBehavior).dets.map
                (labelLineOf 10 10))]))) :=
  ⟨by decide, Or.inr (Or.inl ⟨0, rfl, rfl, by decide⟩),
    C4_artifact_failure_keeps_written_artifacts ⟨true, true, false⟩ "imgs" "a.jpg"
      ⟨10, 10, [⟨0, 1, ⟨1, 2, 3, 4⟩⟩], some (FailPoint.cropWrite 0)⟩ initState
      (by decide) (Or.inr (Or.inl ⟨0, rfl, rfl, by decide⟩))⟩

/-- C10: the total-detection counter is bumped by the image's detection count
before any artifact is written, so a run whose artifact write fails for that
image still counts its detections in `total_detections` while excluding the
image from `processed_images`. -/
theorem C10_totals_include_failed_image
    (fl : Flags) (dirName imgName : String) (b : ImgBehavior) (st : RunState)
    (hne : b.dets ≠ [])
    (hfail : (fl.save_labels = true ∧ b.failAt = some FailPoint.labelWrite)
      ∨ (∃ k, fl.save_crops = true ∧ b.failAt = some (FailPoint.cropWrite k) ∧ k < b.dets.length)
      ∨ (fl.save_annotated = true ∧ b.failAt = some FailPoint.annotatedWrite)) :
    (processImage fl dirName imgName b st).total_detections
      = st.total_detections + b.dets.length ∧
    (processImage fl dirName imgName b st).processed_images = st.processed_images := by
  have hie : b.dets.isEmpty = false := by
    rcases hd : b.dets with _ | _
    · exact absurd hd hne
    · rfl
  have hnd := artifact_failure_not_decode fl b hfail
  have hsf := artifact_failure_not_succeeds fl b hne hfail
  refine ⟨?_, by simp [processImage_processed, hsf]⟩
  rw [processImage_total]; simp [hnd, hie]

/-- Witness for C10: annotated output enabled, two detections, the annotated
write fails; the two detections are still counted. -/
theorem C10_witness :
    ((⟨8, 8, [⟨0, 1, ⟨1, 1, 2, 2⟩⟩, ⟨1, 1, ⟨2, 2, 3, 3⟩⟩],
        some FailPoint.annotatedWrite⟩ : ImgBehavior).dets ≠ []) ∧
    (((⟨false, false, true⟩ : Flags).save_labels = true ∧
        (⟨8, 8, [⟨0, 1, ⟨1, 1, 2, 2⟩⟩, ⟨1, 1, ⟨2, 2, 3, 3⟩⟩],
          some FailPoint.annotatedWrite⟩ : ImgBehavior).failAt = some FailPoint.labelWrite)
      ∨ (∃ k, (⟨false, false, true⟩ : Flags).save_crops = true ∧
          (⟨8, 8, [⟨0, 1, ⟨1, 1, 2, 2⟩⟩, ⟨1, 1, ⟨2, 2, 3, 3⟩⟩],
            some FailPoint.annotatedWrite⟩ : ImgBehavior).failAt = some (FailPoint.cropWrite k) ∧
          k < (⟨8, 8, [⟨0, 1, ⟨1, 1, 2, 2⟩⟩, ⟨1, 1, ⟨2, 2, 3, 3⟩⟩],
            some FailPoint.annotatedWrite⟩ : ImgBehavior).dets.length)
      ∨ ((⟨false, false, true⟩ : Flags).save_annotated = true ∧
          (⟨8, 8, [⟨0, 1, ⟨1, 1, 2, 2⟩⟩, ⟨1, 1, ⟨2, 2, 3, 3⟩⟩],
            some FailPoint.annotatedWrite⟩ : ImgBehavior).failAt = some FailPoint.annotatedWrite)) ∧
    ((processImage ⟨false, false, true⟩ "imgs" "z.png"
        ⟨8, 8, [⟨0, 1, ⟨1, 1, 2, 2⟩⟩, ⟨1, 1, ⟨2, 2, 3, 3⟩⟩],
          some FailPoint.annotatedWrite⟩ initState).total_detections
      = initState.total_detections +
          (⟨8, 8, [⟨0, 1, ⟨1, 1, 2, 2⟩⟩, ⟨1, 1, ⟨2, 2, 3, 3⟩⟩],
            some FailPoint.annotatedWrite⟩ : ImgBehavior).dets.length ∧
    (processImage ⟨false, false, true⟩ "imgs" "z.png"
        ⟨8, 8, [⟨0, 1, ⟨1, 1, 2, 2⟩⟩, ⟨1, 1, ⟨2, 2, 3, 3⟩⟩],
          some FailPoint.annotatedWrite⟩ initState).processed_images
      = initState.processed_images) :=
  ⟨by decide, Or.inr (Or.inr ⟨rfl, rfl⟩),
    C10_totals_include_failed_image ⟨false, false, true⟩ "imgs" "z.png"
      ⟨8, 8, [⟨0, 1, ⟨1, 1, 2, 2⟩⟩, ⟨1, 1, ⟨2, 2, 3, 3⟩⟩], some FailPoint.annotatedWrite⟩
      initState (by decide) (Or.inr (Or.inr ⟨rfl, rfl⟩))⟩

/-- C5: with label saving enabled, a fully processed image's label file holds
exactly one line per detection, each line carrying the class id and the
YOLO-normalised box values center_x = ((x1+x2)/2)/W, center_y = ((y1+y2)/2)/H,
width = (x2-x1)/W, height = (y2-y1)/H in six-decimal fixed precision
(modelled by `round6`); an image with zero detections still gets an empty
label file. -/
theorem C5_label_file_one_line_per_detection (fl : Flags) (dirName imgName : String)
    (b : ImgBehavior) (st : RunState)
    (hl : fl.save_labels = true) (hok : b.failAt = none) :
    (b.dets ≠ [] →
      (processImage fl dirName imgName b st).labelFiles
        = st.labelFiles ++ [(stemOf imgName, b.dets.map (fun det =>
            { cls := det.cls
              center_x := round6 (((det.box.x1 + det.box.x2) / 2) / (b.width : ℚ))
              center_y := round6 (((det.box.y1 + det.box.y2) / 2) / (b.height : ℚ))
              w := round6 ((det.box.x2 - det.box.x1) / (b.width : ℚ))
              h := round6 ((det.box.y2 - det.box.y1) / (b.height : ℚ)) }))] ∧
      (b.dets.map (labelLineOf b.width b.height)).length = b.dets.length) ∧
    (b.dets = [] →
      (processImage fl dirName imgName b st).labelFiles
        = st.labelFiles ++ [(stemOf imgName, ([] : List LabelLine))]) := by
  rcases fl with ⟨c, l, a⟩
  simp only [Flags.save_labels] at hl
  subst hl
  constructor
  · intro hne
    have hie : b.dets.isEmpty = false := by
      rcases hd : b.dets with _ | _
      · exact absurd hd hne
      · rfl
    constructor
    · cases c <;> cases a <;>
        simp [processImage, artifactPhase, tryLabels, tryCrops, tryAnnotated,
          hok, hie, labelLineOf]
    · simp
  · intro he
    simp [processImage, tryTouchLabel, hok, he]

/-- Witness for C5 at one fully processed image with one detection. -/
theorem C5_witness :
    (⟨false, true, false⟩ : Flags).save_labels = true ∧
    (⟨10, 10, [⟨0, 1, ⟨1, 2, 3, 4⟩⟩], none⟩ : ImgBehavior).failAt = none ∧
    (((⟨10, 10, [⟨0, 1, ⟨1, 2, 3, 4⟩⟩], none⟩ : ImgBehavior).dets ≠ [] →
      (processImage ⟨false, true, false⟩ "imgs" "a.jpg"
          ⟨10, 10, [⟨0, 1, ⟨1, 2, 3, 4⟩⟩], none⟩ initState).labelFiles
        = initState.labelFiles ++ [(stemOf "a.jpg",
            (⟨10, 10, [⟨0, 1, ⟨1, 2, 3, 4⟩⟩], none⟩ : ImgBehavior).dets.map (fun det =>
              { cls := det.cls
                center_x := round6 (((det.box.x1 + det.box.x2) / 2) /
                  ((⟨10, 10, [⟨0, 1, ⟨1, 2, 3, 4⟩⟩], none⟩ : ImgBehavior).width : ℚ))
                center_y := round6 (((det.box.y1 + det.box.y2) / 2) /
                  ((⟨10, 10, [⟨0, 1, ⟨1, 2, 3, 4⟩⟩], none⟩ : ImgBehavior).height : ℚ))
                w := round6 ((det.box.x2 - det.box.x1) /
                  ((⟨10, 10, [⟨0, 1, ⟨1, 2, 3, 4⟩⟩], none⟩ : ImgBehavior).width : ℚ))
                h := round6 ((det.box.y2 - det.box.y1) /
                  ((⟨10, 10, [⟨0, 1, ⟨1, 2, 3, 4⟩⟩], none⟩ : ImgBehavior).height : ℚ)) }))] ∧
      ((⟨10, 10, [⟨0, 1, ⟨1, 2, 3, 4⟩⟩], none⟩ : ImgBehavior).dets.map
        (labelLineOf (⟨10, 10, [⟨0, 1, ⟨1, 2, 3, 4⟩⟩], none⟩ : ImgBehavior).width
          (⟨10, 10, [⟨0, 1, ⟨1, 2, 3, 4⟩⟩], none⟩ : ImgBehavior).height)).length
        = (⟨10, 10, [⟨0, 1, ⟨1, 2, 3, 4⟩⟩], none⟩ : ImgBehavior).dets.length) ∧
    ((⟨10, 10, [⟨0, 1, ⟨1, 2, 3, 4⟩⟩], none⟩ : ImgBehavior).dets = [] →
      (processImage ⟨false, true, false⟩ "imgs" "a.jpg"
          ⟨10, 10, [⟨0, 1, ⟨1, 2, 3, 4⟩⟩], none⟩ initState).labelFiles
        = initState.labelFiles ++ [(stemOf "a.jpg", ([] : List LabelLine))])) :=
  ⟨rfl, rfl, C5_label_file_one_line_per_detection ⟨false, true, false⟩ "imgs" "a.jpg"
    ⟨10, 10, [⟨0, 1, ⟨1, 2, 3, 4⟩⟩], none⟩ initState rfl rfl⟩

/-- C8: with crop saving enabled, the crop file at zero-based sequence
position `k` of a fully processed image is named
`stem_crop_(k zero-padded to 3 digits).jpg`, and the detection at the same
position is recorded in the ledger as `detection(k+1)` (1-indexed). -/
theorem C8_crop_zero_indexed_ledger_one_indexed (fl : Flags) (dirName imgName : String)
    (b : ImgBehavior) (st : RunState)
    (hc : fl.save_crops = true) (hok : b.failAt = none) (hne : b.dets ≠ []) :
    (processImage fl dirName imgName b st).cropFiles
      = st.cropFiles ++ (List.range b.dets.length).map
          (fun k => stemOf imgName ++ "_crop_" ++ pad3 k ++ ".jpg") ∧
    (∀ k, (hk : k < b.dets.length) →
      ((processImage fl dirName imgName b st).cropFiles)[st.cropFiles.length + k]?
        = some (stemOf imgName ++ "_crop_" ++ pad3 k ++ ".jpg") ∧
      ((processImage fl dirName imgName b st).rows)[st.rows.length + k]?
        = some [Cell.str dirName, Cell.str imgName,
            Cell.str ("detection" ++ toString (k + 1)), Cell.num (b.dets.get ⟨k, hk⟩).conf]) := by
  have hie : b.dets.isEmpty = false := by
    rcases hd : b.dets with _ | _
    · exact absurd hd hne
    · rfl
  have h1 : (processImage fl dirName imgName b st).cropFiles
      = st.cropFiles ++ (List.range b.dets.length).map
          (fun k => stemOf imgName ++ "_crop_" ++ pad3 k ++ ".jpg") := by
    rcases fl with ⟨c, l, a⟩
    simp only [Flags.save_crops] at hc
    subst hc
    cases l <;> cases a <;>
      simp [processImage, artifactPhase, tryLabels, tryCrops, tryAnnotated,
        hok, hie, cropName]
  refine ⟨h1, ?_⟩
  intro k hk
  constructor
  · rw [h1, List.getElem?_append_right (by omega)]
    simp [List.getElem?_map, List.getElem?_range, hk]
  · rw [processImage_rows]
    have hnd : ¬b.failAt = some FailPoint.decode := by simp [hok]
    have hrows : imageRows dirName imgName b = detectionRows dirName imgName 1 b.dets := by
      simp [imageRows, hnd, hie]
    rw [hrows, List.getElem?_append_right (by omega)]
    have hsub : st.rows.length + k - st.rows.length = k := by omega
    rw [hsub, detectionRows_getElem? dirName imgName 1 b.dets k hk]
    simp [detectionRow, Nat.add_comm]

/-- Witness for C8 at one fully processed image with one detection. -/
theorem C8_witness :
    (⟨true, false, false⟩ : Flags).save_crops = true ∧
    (⟨10, 10, [⟨0, 1, ⟨1, 2, 3, 4⟩⟩], none⟩ : ImgBehavior).failAt = none ∧
    (⟨10, 10, [⟨0, 1, ⟨1, 2, 3, 4⟩⟩], none⟩ : ImgBehavior).dets ≠ [] ∧
    ((processImage ⟨true, false, false⟩ "imgs" "a.jpg"
        ⟨10, 10, [⟨0, 1, ⟨1, 2, 3, 4⟩⟩], none⟩ initState).cropFiles
      = initState.cropFiles ++
          (List.range (⟨10, 10, [⟨0, 1, ⟨1, 2, 3, 4⟩⟩], none⟩ : ImgBehavior).dets.length).map
            (fun k => stemOf "a.jpg" ++ "_crop_" ++ pad3 k ++ ".jpg") ∧
    (∀ k, (hk : k < (⟨10, 10, [⟨0, 1, ⟨1, 2, 3, 4⟩⟩], none⟩ : ImgBehavior).dets.length) →
      ((processImage ⟨true, false, false⟩ "imgs" "a.jpg"
          ⟨10, 10, [⟨0, 1, ⟨1, 2, 3, 4⟩⟩], none⟩ initState).cropFiles)[initState.cropFiles.length + k]?
        = some (stemOf "a.jpg" ++ "_crop_" ++ pad3 k ++ ".jpg") ∧
      ((processImage ⟨true, false, false⟩ "imgs" "a.jpg"
          ⟨10, 10, [⟨0, 1, ⟨1, 2, 3, 4⟩⟩], none⟩ initState).rows)[initState.rows.length + k]?
        = some [Cell.str "imgs", Cell.str "a.jpg",
            Cell.str ("detection" ++ toString (k + 1)),
            Cell.num ((⟨10, 10, [⟨0, 1, ⟨1, 2, 3, 4⟩⟩], none⟩ : ImgBehavior).dets.get ⟨k, hk⟩).conf])) :=
  ⟨rfl, rfl, by decide, C8_crop_zero_indexed_ledger_one_indexed ⟨true, false, false⟩
    "imgs" "a.jpg" ⟨10, 10, [⟨0, 1, ⟨1, 2, 3, 4⟩⟩], none⟩ initState rfl rfl (by decide)⟩

/-- C9: with a deterministic detector (environments agreeing on every
enumerated file), two runs over the same directory with the same flags
produce identical outputs — in particular byte-identical ledger rows — and
the images are enumerated in sorted-by-name order. -/
theorem C9_idempotent_and_sorted_enumeration (fl : Flags) (dirName outDir : String)
    (entries : List DirEntry) (env1 env2 : String → ImgBehavior)
    (hagree : ∀ imgName ∈ enumerateImages entries, env1 imgName = env2 imgName) :
    run_yolo_inference fl dirName outDir entries env1
      = run_yolo_inference fl dirName outDir entries env2 ∧
    List.Sorted (fun a b => strLe a b = true) (enumerateImages entries) := by
  constructor
  · unfold run_yolo_inference
    by_cases he : (enumerateImages entries).isEmpty
    · simp [he]
    · have hf := foldl_processImage_env_congr fl dirName env1 env2
        (enumerateImages entries) initState hagree
      simp [he, hf]
  · exact List.sorted_insertionSort (fun a b : String => strLe a b = true)
      ((entries.filter eligible).map DirEntry.name)

/-- Witness for C9 at a concrete two-image directory with equal environments. -/
theorem C9_witness :
    (∀ imgName ∈ enumerateImages [⟨"b.jpg", true⟩, ⟨"a.jpg", true⟩],
      (fun _ => (⟨4, 4, [], none⟩ : ImgBehavior)) imgName
        = (fun _ => (⟨4, 4, [], none⟩ : ImgBehavior)) imgName) ∧
    (run_yolo_inference ⟨false, false, false⟩ "d" "o" [⟨"b.jpg", true⟩, ⟨"a.jpg", true⟩]
        (fun _ => ⟨4, 4, [], none⟩)
      = run_yolo_inference ⟨false, false, false⟩ "d" "o" [⟨"b.jpg", true⟩, ⟨"a.jpg", true⟩]
        (fun _ => ⟨4, 4, [], none⟩) ∧
    List.Sorted (fun a b => strLe a b = true)
      (enumerateImages [⟨"b.jpg", true⟩, ⟨"a.jpg", true⟩])) :=
  ⟨fun _ _ => rfl, C9_idempotent_and_sorted_enumeration ⟨false, false, false⟩ "d" "o"
    [⟨"b.jpg", true⟩, ⟨"a.jpg", true⟩] (fun _ => ⟨4, 4, [], none⟩)
    (fun _ => ⟨4, 4, [], none⟩) (fun _ _ => rfl)⟩

end ArthropodBatch
